import Mathlib

/-!
Verification of the SkillPath-Navigator recommendation core
(`ml/src/recommend.py`, class `RecommendationEngine`), shallowly embedded
in Lean 4.

Modelling conventions:
* A catalog row (`self.courses_df`) is a `Course`; the loaded engine state
  (`self.course_embeddings`, `self.courses_df`) is an `Engine` whose two
  fields are `Option`s, `none` meaning the pickle was not loaded.
* The external library call
  `cosine_similarity([learner_embedding], self.course_embeddings)[0]`
  (sklearn, outside this repository) is modelled by passing its result, the
  per-course similarity row, as an explicit list `sims : List ℚ`; everything
  the repository does with that row is embedded faithfully.
* `np.argsort(similarities)[::-1]` is modelled by `argsortDesc`.  NumPy's
  default sort kind is not stable, so among equal similarities the source
  guarantees no particular index order; `argsortDesc` fixes one
  deterministic refinement (stable ascending argsort, reversed) so the
  model stays executable.  Theorems rely only on the postconditions every
  `np.argsort` kind satisfies — the result is a permutation of the index
  range, ordered by non-increasing similarity — never on the refinement's
  tie order.
* Python machine floats are modelled by ℚ; Python sets of strings by
  `Finset String`; `duration_hours // 10` by ℕ floor division.
* `collectAux` and `pathLoopAux` return, next to each emitted output
  record, the catalog index (resp. the catalog row) it was built from; the
  functions named after the source methods project that instrumentation
  away, so their output is exactly the source's.
-/

namespace SkillPath

/-- A row of `courses_df`: one catalog entry, with the fields the
recommendation engine reads. -/
structure Course where
  id : ℤ
  title : String
  description : String
  nsqf_level : ℕ
  sector : String
  duration_hours : ℕ
  skills_covered : List String
  prerequisites : List String
deriving DecidableEq, Inhabited

/-- The optional `filters` dict of `content_based_recommendations`:
`none` in a field models an absent key (or `None` value). -/
structure Filters where
  nsqf_level : Option ℕ
  sector : Option String
deriving DecidableEq, Inhabited

/-- One element of the list returned by `content_based_recommendations`. -/
structure RecommendationItem where
  course_id : ℤ
  relevance_score : ℚ
  explanation : Option String
deriving DecidableEq

/-- The dict returned by `RecommendationEngine.recommend`. -/
structure RecommendResponse where
  recommendations : List RecommendationItem
  model_version : String
deriving DecidableEq

/-- One element of `path_nodes` built by `generate_learning_path`. -/
structure PathNode where
  course_id : ℤ
  sequence_order : ℕ
  estimated_completion_weeks : ℕ
  prerequisites_met : Bool
deriving DecidableEq

/-- The dict returned by `generate_learning_path`. -/
structure PathResult where
  path_nodes : List PathNode
  total_duration_weeks : ℕ
  target_nsqf_level : ℕ
deriving DecidableEq

/-- The loaded state of `RecommendationEngine`: `course_embeddings` and
`courses_df` are both `None` until `load_models` succeeds.  Only the
presence of the embedding table matters downstream (its numeric content
enters through the similarity row), so it is modelled as `Option Unit`. -/
structure Engine where
  course_embeddings : Option Unit
  courses_df : Option (List Course)

/-- The two `continue` guards of the scan loop in
`content_based_recommendations`: a course is kept iff no truthy filter
value disagrees with it.  A Python-falsy filter value (`0` for the level,
`""` for the sector) deactivates that filter, as in the source. -/
def passesFilters (filters : Option Filters) (c : Course) : Bool :=
  match filters with
  | none => true
  | some f =>
      (match f.nsqf_level with
       | some v => if v ≠ 0 then decide (c.nsqf_level = v) else true
       | none => true)
      &&
      (match f.sector with
       | some s => if s ≠ "" then decide (c.sector = s) else true
       | none => true)

/-- The nsqf_level filter value that is actually active (truthy) in a
`filters` argument, if any. -/
def activeNsqf (filters : Option Filters) : Option ℕ :=
  match filters with
  | none => none
  | some f =>
      match f.nsqf_level with
      | some v => if v ≠ 0 then some v else none
      | none => none

/-- The sector filter value that is actually active (truthy) in a
`filters` argument, if any. -/
def activeSector (filters : Option Filters) : Option String :=
  match filters with
  | none => none
  | some f =>
      match f.sector with
      | some s => if s ≠ "" then some s else none
      | none => none

/-- `RecommendationEngine._generate_explanation`. -/
def generate_explanation (c : Course) (score : ℚ) : String :=
  let tier : String :=
    if (8 : ℚ) / 10 < score then "Highly aligned with your profile"
    else if (6 : ℚ) / 10 < score then "Good match for your skills and interests"
    else "Relevant to your career goals"
  match c.skills_covered with
  | [] => tier
  | _ :: _ => tier ++ ". " ++ "Covers: " ++ String.intercalate ", " (c.skills_covered.take 3)

/-- The dict appended to `recommendations` for catalog row `c` with
similarity `s`. -/
def mkItem (c : Course) (s : ℚ) : RecommendationItem :=
  { course_id := c.id, relevance_score := s,
    explanation := some (generate_explanation c s) }

/-- The index order used by `argsortDesc` below: `i` comes no later than
`j` iff `i` has the strictly larger similarity, or equal similarity and
`j ≤ i`.  The equal-similarity leg is a modelling choice, not a numpy
guarantee: numpy's default argsort kind is unstable, so the source fixes
no tie order.  Claim theorems use only the first leg (non-increasing
similarity). -/
def simLex (sims : List ℚ) (i j : ℕ) : Prop :=
  sims.getD j 0 < sims.getD i 0 ∨ (sims.getD i 0 = sims.getD j 0 ∧ j ≤ i)

instance (sims : List ℚ) : DecidableRel (simLex sims) := fun i j => by
  unfold simLex; exact inferInstance

/-- `np.argsort(similarities)[::-1]`: all catalog indices, ordered by
non-increasing similarity.  This is one deterministic refinement of the
source (which leaves the order of equal similarities unspecified); see the
header note. -/
def argsortDesc (sims : List ℚ) : List ℕ :=
  List.insertionSort (simLex sims) (List.range sims.length)

/-- The scan loop of `content_based_recommendations` (lines 67-84),
instrumented: each emitted item is paired with the catalog index it came
from.  `k` is `top_k - len(recommendations)`, the remaining budget; the
loop breaks once it reaches `0`. -/
def collectAux (df : List Course) (sims : List ℚ) (filters : Option Filters) :
    ℕ → List ℕ → List (ℕ × RecommendationItem)
  | _, [] => []
  | 0, _ :: _ => []
  | k + 1, i :: rest =>
      let course := df.getD i default
      if passesFilters filters course then
        (i, mkItem course (sims.getD i 0)) :: collectAux df sims filters k rest
      else
        collectAux df sims filters (k + 1) rest

/-- `RecommendationEngine.content_based_recommendations`, instrumented with
the originating catalog index of each item. -/
def content_based_pairs (e : Engine) (sims : List ℚ) (top_k : ℕ)
    (filters : Option Filters) : List (ℕ × RecommendationItem) :=
  match e.course_embeddings, e.courses_df with
  | some _, some df =>
      let top_indices := (argsortDesc sims).take (top_k * 2)
      collectAux df sims filters top_k top_indices
  | _, _ => []

/-- `RecommendationEngine.content_based_recommendations`: returns `[]` when
either pickle half is unloaded, otherwise scans the `top_k * 2` highest
similarity indices, skipping filtered courses, until `top_k` items are
collected. -/
def content_based_recommendations (e : Engine) (sims : List ℚ) (top_k : ℕ)
    (filters : Option Filters) : List RecommendationItem :=
  (content_based_pairs e sims top_k filters).map Prod.snd

/-- `rec.pop("explanation", None)` applied to one item. -/
def stripExplanation (r : RecommendationItem) : RecommendationItem :=
  { r with explanation := none }

/-- `RecommendationEngine.recommend`: ranks with the default
`filters=None`, optionally strips explanations, and wraps the result. -/
def recommend (e : Engine) (sims : List ℚ) (top_k : ℕ)
    (include_explanations : Bool) : RecommendResponse :=
  let recs := content_based_recommendations e sims top_k none
  { recommendations :=
      if include_explanations then recs else recs.map stripExplanation,
    model_version := "1.0.0" }

/-- `set(course.get("prerequisites", [])).issubset(current_skills)`. -/
def eligibleB (skills : Finset String) (c : Course) : Bool :=
  c.prerequisites.all fun s => decide (s ∈ skills)

/-- Picks `eligible_courses[0]` together with `available_courses.drop(best_idx)`:
the first list element satisfying `p`, paired with the list with that one
occurrence removed. -/
def selectFirst (p : Course → Bool) : List Course → Option (Course × List Course)
  | [] => none
  | c :: rest =>
      if p c then some (c, rest)
      else (selectFirst p rest).map fun x => (x.1, c :: x.2)

/-- The path-building loop of `generate_learning_path` (lines 156-181),
instrumented: each emitted `PathNode` is paired with the catalog row it was
built from.  Returns the node list and `total_weeks`. -/
def pathLoopAux : ℕ → List Course → Finset String → ℕ → List (Course × PathNode) × ℕ
  | 0, _, _, _ => ([], 0)
  | fuel + 1, avail, skills, seq =>
      match selectFirst (eligibleB skills) avail with
      | none => ([], 0)
      | some (best, rest) =>
          let weeks := best.duration_hours / 10
          let node : PathNode :=
            { course_id := best.id, sequence_order := seq,
              estimated_completion_weeks := weeks, prerequisites_met := true }
          let r := pathLoopAux fuel rest (skills ∪ best.skills_covered.toFinset) (seq + 1)
          ((best, node) :: r.1, weeks + r.2)

/-- The body of `generate_learning_path` after the `None` check,
instrumented: the nsqf pre-filter, then the loop over
`range(min(5, len(available_courses)))` starting from the learner's prior
skills with `sequence_order = 1`. -/
def glpPairs (df : List Course) (prior_skills : List String)
    (target_nsqf_level : Option ℕ) : List (Course × PathNode) × ℕ :=
  let available :=
    match target_nsqf_level with
    | some t => df.filter fun c => decide (c.nsqf_level ≤ t)
    | none => df
  pathLoopAux (min 5 available.length) available prior_skills.toFinset 1

/-- `RecommendationEngine.generate_learning_path`.  `career_goal` is
accepted and ignored, as in the source. -/
def generate_learning_path (courses_df : Option (List Course))
    (prior_skills : List String) (career_goal : String)
    (target_nsqf_level : Option ℕ) : PathResult :=
  match courses_df with
  | none =>
      { path_nodes := [], total_duration_weeks := 0,
        target_nsqf_level := target_nsqf_level.getD 5 }
  | some df =>
      let r := glpPairs df prior_skills target_nsqf_level
      { path_nodes := r.1.map Prod.snd, total_duration_weeks := r.2,
        target_nsqf_level := target_nsqf_level.getD 5 }

/-- The skills covered by a list of catalog rows, as one set. -/
def coveredOf (cs : List Course) : Finset String :=
  cs.foldr (fun c acc => c.skills_covered.toFinset ∪ acc) ∅

/-- Sample catalog row: no prerequisites, covers skill A (the first course
of the path-building scenario in the spec). -/
def cA : Course :=
  { id := 1, title := "a", description := "", nsqf_level := 4, sector := "CS",
    duration_hours := 40, skills_covered := ["A"], prerequisites := [] }

/-- Sample catalog row: requires skill A, covers skill B (the second course
of the path-building scenario in the spec). -/
def cB : Course :=
  { id := 2, title := "b", description := "", nsqf_level := 4, sector := "IT",
    duration_hours := 20, skills_covered := ["B"], prerequisites := ["A"] }

/-- Sample catalog row in sector CS with no prerequisites. -/
def cD : Course :=
  { id := 4, title := "d", description := "", nsqf_level := 4, sector := "CS",
    duration_hours := 10, skills_covered := ["D"], prerequisites := [] }

/-- Sample catalog row in sector IT with no prerequisites. -/
def cC : Course :=
  { id := 3, title := "c", description := "", nsqf_level := 4, sector := "IT",
    duration_hours := 30, skills_covered := ["C"], prerequisites := [] }

/-! ### Helper lemmas about the ranking scan -/

lemma simLex_total (sims : List ℚ) : ∀ i j, simLex sims i j ∨ simLex sims j i := by
  intro i j
  unfold simLex
  rcases lt_trichotomy (sims.getD i 0) (sims.getD j 0) with h | h | h
  · exact Or.inr (Or.inl h)
  · rcases le_total i j with hij | hij
    · exact Or.inr (Or.inr ⟨h.symm, hij⟩)
    · exact Or.inl (Or.inr ⟨h, hij⟩)
  · exact Or.inl (Or.inl h)

lemma simLex_trans (sims : List ℚ) :
    ∀ i j k, simLex sims i j → simLex sims j k → simLex sims i k := by
  intro i j k hij hjk
  unfold simLex at hij hjk ⊢
  rcases hij with h1 | h1 <;> rcases hjk with h2 | h2
  · exact Or.inl (lt_trans h2 h1)
  · exact Or.inl (h2.1 ▸ h1)
  · exact Or.inl (h1.1.symm ▸ h2)
  · exact Or.inr ⟨h1.1.trans h2.1, le_trans h2.2 h1.2⟩

lemma sorted_argsortDesc (sims : List ℚ) : List.Sorted (simLex sims) (argsortDesc sims) := by
  haveI : IsTotal ℕ (simLex sims) := ⟨simLex_total sims⟩
  haveI : IsTrans ℕ (simLex sims) := ⟨fun _ _ _ => simLex_trans sims _ _ _⟩
  exact List.sorted_insertionSort _ _

lemma argsortDesc_perm (sims : List ℚ) :
    (argsortDesc sims).Perm (List.range sims.length) :=
  List.perm_insertionSort _ _

lemma argsortDesc_nodup (sims : List ℚ) : (argsortDesc sims).Nodup :=
  ((argsortDesc_perm sims).nodup_iff).mpr (List.nodup_range _)

lemma collectAux_fst_sublist (df : List Course) (sims : List ℚ) (filters : Option Filters) :
    ∀ (k : ℕ) (idxs : List ℕ),
      ((collectAux df sims filters k idxs).map Prod.fst).Sublist idxs
  | _, [] => by simp [collectAux]
  | 0, _ :: _ => by simp [collectAux]
  | k + 1, i :: rest => by
      simp only [collectAux]
      split
      · exact (collectAux_fst_sublist df sims filters k rest).cons₂ i
      · exact (collectAux_fst_sublist df sims filters (k + 1) rest).cons i

lemma collectAux_mem (df : List Course) (sims : List ℚ) (filters : Option Filters) :
    ∀ (k : ℕ) (idxs : List ℕ) (p : ℕ × RecommendationItem),
      p ∈ collectAux df sims filters k idxs →
      p.1 ∈ idxs ∧ passesFilters filters (df.getD p.1 default) = true ∧
        p.2 = mkItem (df.getD p.1 default) (sims.getD p.1 0)
  | _, [], p => by simp [collectAux]
  | 0, _ :: _, p => by simp [collectAux]
  | k + 1, i :: rest, p => by
      simp only [collectAux]
      split
      · rename_i hpass
        intro hp
        rcases List.mem_cons.mp hp with hp | hp
        · subst hp
          exact ⟨List.mem_cons_self _ _, hpass, rfl⟩
        · obtain ⟨h1, h2, h3⟩ := collectAux_mem df sims filters k rest p hp
          exact ⟨List.mem_cons_of_mem _ h1, h2, h3⟩
      · intro hp
        obtain ⟨h1, h2, h3⟩ := collectAux_mem df sims filters (k + 1) rest p hp
        exact ⟨List.mem_cons_of_mem _ h1, h2, h3⟩

lemma collectAux_length (df : List Course) (sims : List ℚ) (filters : Option Filters) :
    ∀ (k : ℕ) (idxs : List ℕ),
      (collectAux df sims filters k idxs).length =
        min k (idxs.countP fun i => passesFilters filters (df.getD i default))
  | _, [] => by simp [collectAux]
  | 0, _ :: _ => by simp [collectAux]
  | k + 1, i :: rest => by
      have ihk := collectAux_length df sims filters k rest
      have ihk1 := collectAux_length df sims filters (k + 1) rest
      simp only [collectAux, List.countP_cons]
      split
      · rename_i hpass
        simp only [hpass, List.length_cons, ihk]
        omega
      · rename_i hpass
        simp only [Bool.not_eq_true] at hpass
        simp [hpass, ihk1]

lemma countP_range_getD (p : Course → Bool) :
    ∀ (df : List Course),
      (List.range df.length).countP (fun i => p (df.getD i default)) = df.countP p
  | [] => by simp
  | c :: t => by
      have ih := countP_range_getD p t
      rw [List.length_cons, List.range_succ_eq_map, List.countP_cons,
        List.countP_map]
      simp only [List.getD_cons_zero, List.getD_cons_succ, Function.comp_def,
        List.countP_cons] at *
      omega

lemma passesFilters_active (filters : Option Filters) (c : Course)
    (h : passesFilters filters c = true) :
    (∀ v, activeNsqf filters = some v → c.nsqf_level = v) ∧
    (∀ s, activeSector filters = some s → c.sector = s) := by
  cases filters with
  | none => exact ⟨fun v hv => by simp [activeNsqf] at hv,
      fun s hs => by simp [activeSector] at hs⟩
  | some f =>
      simp only [passesFilters, Bool.and_eq_true] at h
      constructor
      · intro v hv
        cases hf : f.nsqf_level with
        | none => simp [activeNsqf, hf] at hv
        | some w =>
            by_cases hw : w = 0
            · simp [activeNsqf, hf, hw] at hv
            · have : w = v := by simpa [activeNsqf, hf, hw] using hv
              subst this
              have := h.1
              rw [hf] at this
              simpa [hw] using this
      · intro s hs
        cases hf : f.sector with
        | none => simp [activeSector, hf] at hs
        | some w =>
            by_cases hw : w = ""
            · simp [activeSector, hf, hw] at hs
            · have : w = s := by simpa [activeSector, hf, hw] using hs
              subst this
              have := h.2
              rw [hf] at this
              simpa [hw] using this

/-! ### Claim theorems about the similarity ranker -/

/-- C1 counterexample: on a catalog of two courses with equal similarity,
`content_based_recommendations` returns the course with the larger
`course_id` first, so the output is not pairwise ordered by non-increasing
score with ties broken by ascending `course_id`. -/
theorem ranking_tie_ascending_id_counterexample :
    ¬ (content_based_recommendations ⟨some (), some [cA, cB]⟩
          [1, 1] 2 none).Pairwise
        (fun a b => b.relevance_score < a.relevance_score ∨
          (a.relevance_score = b.relevance_score ∧ a.course_id ≤ b.course_id)) := by
  decide

/-- Helper for C1: the scan loop emits items with non-increasing
`relevance_score` whenever the index list it walks is ordered by
non-increasing similarity — for any tie order whatsoever, so the fact is
independent of how `np.argsort` resolves equal values. -/
lemma collectAux_scores_sorted (df : List Course) (sims : List ℚ)
    (filters : Option Filters) (k : ℕ) (idxs : List ℕ)
    (h : idxs.Pairwise fun i j => sims.getD j 0 ≤ sims.getD i 0) :
    ((collectAux df sims filters k idxs).map Prod.snd).Pairwise
      (fun a b => b.relevance_score ≤ a.relevance_score) := by
  have hsub : ((collectAux df sims filters k idxs).map Prod.fst).Sublist idxs :=
    collectAux_fst_sublist df sims filters k idxs
  have hsorted : ((collectAux df sims filters k idxs).map Prod.fst).Pairwise
      (fun i j => sims.getD j 0 ≤ sims.getD i 0) :=
    List.Pairwise.sublist hsub h
  rw [List.pairwise_map] at hsorted
  rw [List.pairwise_map]
  refine hsorted.imp_of_mem ?_
  intro p q hp hq hpq
  obtain ⟨-, -, hp2⟩ := collectAux_mem df sims filters k idxs p hp
  obtain ⟨-, -, hq2⟩ := collectAux_mem df sims filters k idxs q hq
  have hps : p.2.relevance_score = sims.getD p.1 0 := by rw [hp2]; rfl
  have hqs : q.2.relevance_score = sims.getD q.1 0 := by rw [hq2]; rfl
  rw [hps, hqs]
  exact hpq

lemma argsortDesc_simGe (sims : List ℚ) :
    (argsortDesc sims).Pairwise fun i j => sims.getD j 0 ≤ sims.getD i 0 := by
  refine (sorted_argsortDesc sims).imp ?_
  intro i j hij
  rcases hij with h | ⟨h, -⟩
  · exact le_of_lt h
  · exact le_of_eq h.symm

/-- C1 (amended): the ranking output is sorted by non-increasing
`relevance_score`.  This holds for every candidate index order satisfying
what `np.argsort(...)[::-1]` guarantees regardless of its sort kind —
non-increasing similarity, with ties in any order (first conjunct) — and
for the file's concrete model of the ranker (second conjunct).  No tie
order among equal scores is asserted; the ascending `course_id` tie-break
does not hold. -/
theorem ranking_sorted_nonincreasing (df : List Course) (sims : List ℚ)
    (top_k : ℕ) (filters : Option Filters) (idxs : List ℕ)
    (hsorted : idxs.Pairwise fun i j => sims.getD j 0 ≤ sims.getD i 0) :
    ((collectAux df sims filters top_k (idxs.take (top_k * 2))).map
        Prod.snd).Pairwise
      (fun a b => b.relevance_score ≤ a.relevance_score) ∧
    (content_based_recommendations ⟨some (), some df⟩ sims top_k
        filters).Pairwise
      (fun a b => b.relevance_score ≤ a.relevance_score) := by
  constructor
  · exact collectAux_scores_sorted df sims filters top_k _
      (List.Pairwise.sublist (List.take_sublist _ _) hsorted)
  · show ((collectAux df sims filters top_k ((argsortDesc sims).take
        (top_k * 2))).map Prod.snd).Pairwise
      (fun a b => b.relevance_score ≤ a.relevance_score)
    exact collectAux_scores_sorted df sims filters top_k _
      (List.Pairwise.sublist (List.take_sublist _ _) (argsortDesc_simGe sims))

/-- C1 witness: at a two-course catalog with equal similarities and the
index order numpy produces there, both conjuncts hold. -/
theorem ranking_sorted_nonincreasing_witness :
    ((collectAux [cA, cB] [1, 1] none 2 ([1, 0].take (2 * 2))).map
        Prod.snd).Pairwise
      (fun a b => b.relevance_score ≤ a.relevance_score) ∧
    (content_based_recommendations ⟨some (), some [cA, cB]⟩ [1, 1] 2
        none).Pairwise
      (fun a b => b.relevance_score ≤ a.relevance_score) :=
  ranking_sorted_nonincreasing [cA, cB] [1, 1] 2 none [1, 0] (by decide)

/-- C2 counterexample: with `top_k = 1` and a sector filter matching only
the lowest-similarity course, the scan truncates to the `top_k * 2 = 2`
highest-similarity candidates before filtering and returns nothing, even
though the catalog contains one qualifying course. -/
theorem ranking_filter_after_truncation_counterexample :
    content_based_recommendations ⟨some (), some [cA, cD, cC]⟩
        [3, 2, 1] 1 (some ⟨none, some "IT"⟩) = [] ∧
    1 ≤ [cA, cD, cC].countP (passesFilters (some ⟨none, some "IT"⟩)) := by
  exact ⟨by decide, by decide⟩

/-- C2 (amended): exactly `top_k` items are returned whenever at least
`top_k` qualifying entries exist among the `top_k * 2` candidates the scan
looks at; in particular whenever the whole catalog fits in the scanned
prefix (`len(catalog) ≤ top_k * 2`) and contains at least `top_k`
qualifying entries.  Filtering happens after truncation to `top_k * 2`
candidates, not while scanning the full catalog. -/
theorem ranking_exact_topk_within_scan (df : List Course) (sims : List ℚ)
    (top_k : ℕ) (filters : Option Filters) (hlen : sims.length = df.length)
    (hfit : df.length ≤ top_k * 2)
    (hcount : top_k ≤ df.countP (passesFilters filters)) :
    (content_based_recommendations ⟨some (), some df⟩ sims top_k filters).length
      = top_k := by
  have heq : content_based_recommendations ⟨some (), some df⟩ sims top_k filters =
      (collectAux df sims filters top_k ((argsortDesc sims).take (top_k * 2))).map
        Prod.snd := rfl
  rw [heq, List.length_map, collectAux_length]
  have hlen2 : (argsortDesc sims).length = sims.length :=
    (argsortDesc_perm sims).length_eq.trans (List.length_range _)
  have hfull : (argsortDesc sims).take (top_k * 2) = argsortDesc sims :=
    List.take_of_length_le (by omega)
  rw [hfull]
  have hc : (argsortDesc sims).countP
      (fun i => passesFilters filters (df.getD i default)) =
      df.countP (passesFilters filters) := by
    rw [(argsortDesc_perm sims).countP_eq, hlen]
    exact countP_range_getD _ df
  rw [hc]
  omega

/-- C2 witness: a singleton IT catalog with `top_k = 1` and an IT sector
filter yields exactly one item. -/
theorem ranking_exact_topk_within_scan_witness :
    (content_based_recommendations ⟨some (), some [cC]⟩ [1] 1
      (some ⟨none, some "IT"⟩)).length = 1 :=
  ranking_exact_topk_within_scan [cC] [1] 1 (some ⟨none, some "IT"⟩)
    (by decide) (by decide) (by decide)

/-- C3: the code stores the raw similarity with no clamping, so a negative
cosine similarity (cosine ranges over [-1,1]) is returned as a negative
`relevance_score`, outside the claimed interval [0,1]. -/
theorem relevance_score_not_clamped :
    (content_based_recommendations ⟨some (), some [cA]⟩ [-1] 1 none).map
        (fun r => r.relevance_score) = [-1] ∧ (-1 : ℚ) < 0 := by
  exact ⟨by decide, by decide⟩

/-- C4: the ranking output never exceeds `top_k` items, and every returned
item is built from a catalog entry that agrees with every active filter
value. -/
theorem ranking_topk_and_filter_compliance (df : List Course) (sims : List ℚ)
    (top_k : ℕ) (filters : Option Filters) (hlen : sims.length = df.length) :
    (content_based_recommendations ⟨some (), some df⟩ sims top_k filters).length
        ≤ top_k ∧
    ∀ r ∈ content_based_recommendations ⟨some (), some df⟩ sims top_k filters,
      ∃ c ∈ df, r.course_id = c.id ∧
        (∀ v, activeNsqf filters = some v → c.nsqf_level = v) ∧
        (∀ s, activeSector filters = some s → c.sector = s) := by
  have heq : content_based_recommendations ⟨some (), some df⟩ sims top_k filters =
      (collectAux df sims filters top_k ((argsortDesc sims).take (top_k * 2))).map
        Prod.snd := rfl
  constructor
  · rw [heq, List.length_map, collectAux_length]
    exact Nat.min_le_left _ _
  · intro r hr
    rw [heq] at hr
    obtain ⟨p, hp, rfl⟩ := List.mem_map.mp hr
    obtain ⟨hidx, hpass, hitem⟩ := collectAux_mem df sims filters top_k _ p hp
    have hi : p.1 < df.length := by
      have h1 : p.1 ∈ argsortDesc sims := (List.take_sublist _ _).subset hidx
      have h2 : p.1 ∈ List.range sims.length :=
        (argsortDesc_perm sims).mem_iff.mp h1
      have := List.mem_range.mp h2
      omega
    refine ⟨df.getD p.1 default, ?_, ?_, passesFilters_active filters _ hpass⟩
    · rw [List.getD_eq_getElem _ _ hi]
      exact List.getElem_mem hi
    · rw [hitem]; rfl

/-- C4 witness: with one IT course, similarity row of matching length and
an active IT sector filter, the output has at most one item and each item
matches the filter. -/
theorem ranking_topk_and_filter_compliance_witness :
    (content_based_recommendations ⟨some (), some [cC]⟩ [1] 1
        (some ⟨none, some "IT"⟩)).length ≤ 1 ∧
    ∀ r ∈ content_based_recommendations ⟨some (), some [cC]⟩ [1] 1
        (some ⟨none, some "IT"⟩),
      ∃ c ∈ [cC], r.course_id = c.id ∧
        (∀ v, activeNsqf (some ⟨none, some "IT"⟩) = some v → c.nsqf_level = v) ∧
        (∀ s, activeSector (some ⟨none, some "IT"⟩) = some s → c.sector = s) :=
  ranking_topk_and_filter_compliance [cC] [1] 1 (some ⟨none, some "IT"⟩)
    (by decide)

/-- C9: without a loaded catalog or embedding table the ranker returns the
empty list, and without a loaded catalog the path builder returns an empty
path with zero total weeks; neither is an error. -/
theorem empty_state_returns_empty (e : Engine) (sims : List ℚ) (top_k : ℕ)
    (filters : Option Filters) (prior : List String) (goal : String)
    (target : Option ℕ)
    (h : e.course_embeddings = none ∨ e.courses_df = none) :
    content_based_recommendations e sims top_k filters = [] ∧
    (generate_learning_path none prior goal target).path_nodes = [] ∧
    (generate_learning_path none prior goal target).total_duration_weeks = 0 := by
  refine ⟨?_, rfl, rfl⟩
  obtain ⟨ce, cd⟩ := e
  rcases h with h | h
  · simp only at h
    subst h
    cases cd <;> rfl
  · simp only at h
    subst h
    cases ce <;> rfl

/-- C9 witness: the freshly initialised engine (nothing loaded) returns
empty results from both operations. -/
theorem empty_state_returns_empty_witness :
    content_based_recommendations ⟨none, none⟩ [1, 2] 3 none = [] ∧
    (generate_learning_path none ["Python"] "Data Scientist" (some 5)).path_nodes
      = [] ∧
    (generate_learning_path none ["Python"] "Data Scientist"
      (some 5)).total_duration_weeks = 0 :=
  empty_state_returns_empty ⟨none, none⟩ [1, 2] 3 none ["Python"]
    "Data Scientist" (some 5) (Or.inl rfl)

/-- C10 counterexample: with `include_explanations = false`, `recommend`
strips the explanation field, so its recommendation list is not equal to
the list `content_based_recommendations` returns with `filters = None`. -/
theorem recommend_equals_unfiltered_counterexample :
    (recommend ⟨some (), some [cA]⟩ [1] 1 false).recommendations ≠
      content_based_recommendations ⟨some (), some [cA]⟩ [1] 1 none := by
  decide

/-- C10 (amended): `recommend` applies no nsqf_level or sector filtering:
its recommendation list carries exactly the course ids and scores of
`content_based_recommendations` with `filters = None`; it equals that list
verbatim when `include_explanations` is true and equals it with each
item's explanation removed when false. -/
theorem recommend_is_unfiltered_ranking (e : Engine) (sims : List ℚ)
    (top_k : ℕ) (b : Bool) :
    ((recommend e sims top_k b).recommendations.map
        fun r => (r.course_id, r.relevance_score)) =
      ((content_based_recommendations e sims top_k none).map
        fun r => (r.course_id, r.relevance_score)) ∧
    (b = true → (recommend e sims top_k b).recommendations =
      content_based_recommendations e sims top_k none) ∧
    (b = false → (recommend e sims top_k b).recommendations =
      (content_based_recommendations e sims top_k none).map stripExplanation) ∧
    (recommend e sims top_k b).model_version = "1.0.0" := by
  cases b <;>
    simp [recommend, stripExplanation, List.map_map, Function.comp_def]

/-- C10 witness: at a loaded one-course state with explanations turned
off, `recommend` returns the unfiltered ranking with explanations
stripped. -/
theorem recommend_is_unfiltered_ranking_witness :
    (recommend ⟨some (), some [cA]⟩ [1] 1 false).recommendations =
      (content_based_recommendations ⟨some (), some [cA]⟩ [1] 1 none).map
        stripExplanation :=
  (recommend_is_unfiltered_ranking ⟨some (), some [cA]⟩ [1] 1 false).2.2.1 rfl

/-! ### Helper lemmas about the path builder -/

lemma selectFirst_sound (p : Course → Bool) :
    ∀ (l : List Course) (c : Course) (rest : List Course),
      selectFirst p l = some (c, rest) →
      p c = true ∧ (c :: rest).Perm l
  | [], c, rest => by simp [selectFirst]
  | a :: t, c, rest => by
      simp only [selectFirst]
      split
      · rename_i hp
        intro h
        rw [Option.some.injEq, Prod.mk.injEq] at h
        obtain ⟨h1, h2⟩ := h
        subst h1
        subst h2
        exact ⟨hp, List.Perm.refl _⟩
      · intro h
        rw [Option.map_eq_some'] at h
        obtain ⟨x, hx, hfx⟩ := h
        rw [Prod.mk.injEq] at hfx
        obtain ⟨h1, h2⟩ := hfx
        subst h1
        subst h2
        obtain ⟨hpc, hperm⟩ := selectFirst_sound p t x.1 x.2 hx
        exact ⟨hpc, (List.Perm.swap a x.1 x.2).trans (hperm.cons a)⟩

lemma selectFirst_fst (p : Course → Bool) :
    ∀ l : List Course, (selectFirst p l).map Prod.fst = l.find? p
  | [] => rfl
  | a :: t => by
      simp only [selectFirst]
      split
      · rename_i hp
        rw [List.find?_cons_of_pos _ hp]
        rfl
      · rename_i hp
        rw [List.find?_cons_of_neg _ (by simpa using hp),
          ← selectFirst_fst p t]
        cases selectFirst p t <;> rfl

lemma eligibleB_iff (skills : Finset String) (c : Course) :
    eligibleB skills c = true ↔ c.prerequisites.toFinset ⊆ skills := by
  simp [eligibleB, List.all_eq_true, Finset.subset_iff, List.mem_toFinset]

lemma pathLoopAux_mem :
    ∀ (fuel : ℕ) (avail : List Course) (skills : Finset String) (seq : ℕ)
      (q : Course × PathNode), q ∈ (pathLoopAux fuel avail skills seq).1 →
      q.2.course_id = q.1.id ∧
      q.2.estimated_completion_weeks = q.1.duration_hours / 10 ∧
      q.2.prerequisites_met = true
  | 0, _, _, _, q => by simp [pathLoopAux]
  | fuel + 1, avail, skills, seq, q => by
      simp only [pathLoopAux]
      cases hsel : selectFirst (eligibleB skills) avail with
      | none => simp
      | some br =>
          obtain ⟨best, rest⟩ := br
          intro hq
          rcases List.mem_cons.mp hq with hq | hq
          · subst hq
            exact ⟨rfl, rfl, rfl⟩
          · exact pathLoopAux_mem fuel rest _ (seq + 1) q hq

lemma pathLoopAux_fst_subperm :
    ∀ (fuel : ℕ) (avail : List Course) (skills : Finset String) (seq : ℕ),
      List.Subperm ((pathLoopAux fuel avail skills seq).1.map Prod.fst) avail
  | 0, _, _, _ => by simp [pathLoopAux]
  | fuel + 1, avail, skills, seq => by
      simp only [pathLoopAux]
      cases hsel : selectFirst (eligibleB skills) avail with
      | none => simp
      | some br =>
          obtain ⟨best, rest⟩ := br
          obtain ⟨-, hperm⟩ := selectFirst_sound _ avail best rest hsel
          obtain ⟨l, hl1, hl2⟩ := pathLoopAux_fst_subperm fuel rest
            (skills ∪ best.skills_covered.toFinset) (seq + 1)
          simp only [List.map_cons]
          exact List.Subperm.trans ⟨best :: l, hl1.cons best, hl2.cons₂ best⟩
            hperm.subperm

lemma pathLoopAux_seq :
    ∀ (fuel : ℕ) (avail : List Course) (skills : Finset String) (seq : ℕ),
      (pathLoopAux fuel avail skills seq).1.map (fun q => q.2.sequence_order) =
        List.range' seq (pathLoopAux fuel avail skills seq).1.length
  | 0, _, _, _ => by simp [pathLoopAux]
  | fuel + 1, avail, skills, seq => by
      simp only [pathLoopAux]
      cases hsel : selectFirst (eligibleB skills) avail with
      | none => simp
      | some br =>
          obtain ⟨best, rest⟩ := br
          have ih := pathLoopAux_seq fuel rest
            (skills ∪ best.skills_covered.toFinset) (seq + 1)
          simp only [List.map_cons, List.length_cons, ih]
          rfl

lemma pathLoopAux_total :
    ∀ (fuel : ℕ) (avail : List Course) (skills : Finset String) (seq : ℕ),
      (pathLoopAux fuel avail skills seq).2 =
        ((pathLoopAux fuel avail skills seq).1.map
          (fun q => q.2.estimated_completion_weeks)).sum
  | 0, _, _, _ => by simp [pathLoopAux]
  | fuel + 1, avail, skills, seq => by
      simp only [pathLoopAux]
      cases hsel : selectFirst (eligibleB skills) avail with
      | none => simp
      | some br =>
          obtain ⟨best, rest⟩ := br
          have ih := pathLoopAux_total fuel rest
            (skills ∪ best.skills_covered.toFinset) (seq + 1)
          simp only [List.map_cons, List.sum_cons, ih]

lemma pathLoopAux_prereq :
    ∀ (fuel : ℕ) (avail : List Course) (skills : Finset String) (seq : ℕ)
      (pre : List (Course × PathNode)) (q : Course × PathNode)
      (post : List (Course × PathNode)),
      (pathLoopAux fuel avail skills seq).1 = pre ++ q :: post →
      q.1.prerequisites.toFinset ⊆ skills ∪ coveredOf (pre.map Prod.fst)
  | 0, _, _, _, pre, q, post => by
      intro h
      simp [pathLoopAux] at h
  | fuel + 1, avail, skills, seq, pre, q, post => by
      simp only [pathLoopAux]
      cases hsel : selectFirst (eligibleB skills) avail with
      | none =>
          intro h
          simp at h
      | some br =>
          obtain ⟨best, rest⟩ := br
          obtain ⟨helig, -⟩ := selectFirst_sound _ avail best rest hsel
          intro h
          cases pre with
          | nil =>
              simp only [List.nil_append, List.cons.injEq] at h
              obtain ⟨h1, -⟩ := h
              subst h1
              exact Finset.Subset.trans ((eligibleB_iff skills best).mp helig)
                Finset.subset_union_left
          | cons p0 pre2 =>
              simp only [List.cons_append, List.cons.injEq] at h
              obtain ⟨h1, h2⟩ := h
              subst h1
              have ih := pathLoopAux_prereq fuel rest
                (skills ∪ best.skills_covered.toFinset) (seq + 1) pre2 q post h2
              have : coveredOf (((best,
                  { course_id := best.id, sequence_order := seq,
                    estimated_completion_weeks := best.duration_hours / 10,
                    prerequisites_met := true }) :: pre2).map Prod.fst) =
                  best.skills_covered.toFinset ∪ coveredOf (pre2.map Prod.fst) := rfl
              rw [this, ← Finset.union_assoc]
              exact ih

lemma subperm_map_nodup {α β : Type} (f : α → β) {l₁ l₂ : List α}
    (h : List.Subperm l₁ l₂) (hn : (l₂.map f).Nodup) : (l₁.map f).Nodup := by
  obtain ⟨l, hp, hs⟩ := h
  have h2 : List.Subperm (l₁.map f) (l₂.map f) := ⟨l.map f, hp.map f, hs.map f⟩
  obtain ⟨m, mp, ms⟩ := h2
  exact (mp.nodup_iff).mp (List.Nodup.sublist ms hn)

lemma pathLoop_nodup_and_seq (avail : List Course) (skills : Finset String)
    (fuel : ℕ) (hn : (avail.map Course.id).Nodup) :
    ((((pathLoopAux fuel avail skills 1).1).map Prod.snd).map
      PathNode.course_id).Nodup ∧
    (((pathLoopAux fuel avail skills 1).1).map Prod.snd).map
      PathNode.sequence_order =
      List.range' 1 (((pathLoopAux fuel avail skills 1).1).map Prod.snd).length := by
  constructor
  · have h1 : (((pathLoopAux fuel avail skills 1).1).map Prod.snd).map
        PathNode.course_id =
        ((pathLoopAux fuel avail skills 1).1).map (fun q => q.2.course_id) := by
      rw [List.map_map]; rfl
    have h2 : ((pathLoopAux fuel avail skills 1).1).map (fun q => q.2.course_id) =
        ((pathLoopAux fuel avail skills 1).1).map (fun q => q.1.id) :=
      List.map_congr_left fun q hq => (pathLoopAux_mem fuel avail skills 1 q hq).1
    have h3 : ((pathLoopAux fuel avail skills 1).1).map (fun q => q.1.id) =
        (((pathLoopAux fuel avail skills 1).1).map Prod.fst).map Course.id := by
      rw [List.map_map]; rfl
    rw [h1, h2, h3]
    exact subperm_map_nodup Course.id
      (pathLoopAux_fst_subperm fuel avail skills 1) hn
  · rw [List.map_map, List.length_map]
    exact pathLoopAux_seq fuel avail skills 1

/-! ### Claim theorems about the path builder -/

/-- C5: every emitted path node has its course prerequisites contained in
the learner's initial skills together with the skills covered by all
earlier nodes of the path, and carries `prerequisites_met = true`. -/
theorem path_prerequisites_respected (df : List Course) (prior : List String)
    (goal : String) (target : Option ℕ) (pre : List (Course × PathNode))
    (q : Course × PathNode) (post : List (Course × PathNode))
    (h : (glpPairs df prior target).1 = pre ++ q :: post) :
    (generate_learning_path (some df) prior goal target).path_nodes =
      ((glpPairs df prior target).1).map Prod.snd ∧
    q.1.prerequisites.toFinset ⊆ prior.toFinset ∪ coveredOf (pre.map Prod.fst) ∧
    q.2.prerequisites_met = true := by
  refine ⟨rfl, ?_, ?_⟩
  · exact pathLoopAux_prereq _ _ _ 1 pre q post h
  · have hq : q ∈ (glpPairs df prior target).1 := by
      rw [h]
      exact List.mem_append_right _ (List.mem_cons_self _ _)
    exact (pathLoopAux_mem _ _ _ 1 q hq).2.2

/-- C5 witness: in the two-course scenario the second node's prerequisite
set {A} is contained in the empty initial skills plus the first node's
covered skills. -/
theorem path_prerequisites_respected_witness :
    (generate_learning_path (some [cA, cB]) [] "Data Scientist" none).path_nodes =
      ((glpPairs [cA, cB] [] none).1).map Prod.snd ∧
    cB.prerequisites.toFinset ⊆ ([] : List String).toFinset ∪
      coveredOf ([(cA, (⟨1, 1, 4, true⟩ : PathNode))].map Prod.fst) ∧
    ((⟨2, 2, 2, true⟩ : PathNode)).prerequisites_met = true :=
  path_prerequisites_respected [cA, cB] [] "Data Scientist" none
    [(cA, ⟨1, 1, 4, true⟩)] (cB, ⟨2, 2, 2, true⟩) [] (by decide)

/-- C6: when the catalog ids are pairwise distinct, a generated path has no
duplicate `course_id` and its `sequence_order` values are exactly
`1, 2, ..., len(path)` in order. -/
theorem path_nodup_and_sequence (df : List Course) (prior : List String)
    (goal : String) (target : Option ℕ)
    (hids : (df.map Course.id).Nodup) :
    (((generate_learning_path (some df) prior goal target).path_nodes).map
      PathNode.course_id).Nodup ∧
    ((generate_learning_path (some df) prior goal target).path_nodes).map
      PathNode.sequence_order =
      List.range' 1
        ((generate_learning_path (some df) prior goal target).path_nodes).length := by
  cases target with
  | none => exact pathLoop_nodup_and_seq df prior.toFinset _ hids
  | some t =>
      exact pathLoop_nodup_and_seq _ prior.toFinset _
        (List.Nodup.sublist (List.Sublist.map Course.id (List.filter_sublist df))
          hids)

/-- C6 witness: the two-course scenario produces distinct course ids and
sequence orders [1, 2]. -/
theorem path_nodup_and_sequence_witness :
    (((generate_learning_path (some [cA, cB]) [] "g" none).path_nodes).map
      PathNode.course_id).Nodup ∧
    ((generate_learning_path (some [cA, cB]) [] "g" none).path_nodes).map
      PathNode.sequence_order =
      List.range' 1
        ((generate_learning_path (some [cA, cB]) [] "g" none).path_nodes).length :=
  path_nodup_and_sequence [cA, cB] [] "g" none (by decide)

/-- C7: at each step of the path loop, if no remaining course is eligible
the path ends there; otherwise the node emitted next is built from the
first eligible course in iteration order (`find?`), not from any
best-scoring or shortest one. -/
theorem path_step_selects_first_eligible (fuel : ℕ) (avail : List Course)
    (skills : Finset String) (seq : ℕ) :
    (avail.find? (eligibleB skills) = none →
      pathLoopAux (fuel + 1) avail skills seq = ([], 0)) ∧
    ∀ c, avail.find? (eligibleB skills) = some c →
      ∃ rest, selectFirst (eligibleB skills) avail = some (c, rest) ∧
        pathLoopAux (fuel + 1) avail skills seq =
          ((c, (⟨c.id, seq, c.duration_hours / 10, true⟩ : PathNode)) ::
            (pathLoopAux fuel rest (skills ∪ c.skills_covered.toFinset)
              (seq + 1)).1,
            c.duration_hours / 10 +
              (pathLoopAux fuel rest (skills ∪ c.skills_covered.toFinset)
                (seq + 1)).2) := by
  constructor
  · intro h
    have hfst := selectFirst_fst (eligibleB skills) avail
    rw [h] at hfst
    have hsel : selectFirst (eligibleB skills) avail = none :=
      Option.map_eq_none'.mp hfst
    simp only [pathLoopAux, hsel]
  · intro c h
    have hfst := selectFirst_fst (eligibleB skills) avail
    rw [h] at hfst
    obtain ⟨x, hx, hfx⟩ := Option.map_eq_some'.mp hfst
    obtain ⟨c1, rest⟩ := x
    have hc : c1 = c := hfx
    subst hc
    refine ⟨rest, hx, ?_⟩
    simp only [pathLoopAux, hx]

/-- C7 witness: with no acquired skills, a catalog holding only the course
requiring skill A stalls immediately, while the scenario catalog starts
with its first prerequisite-free course. -/
theorem path_step_selects_first_eligible_witness :
    pathLoopAux 1 [cB] ∅ 1 = ([], 0) ∧
    ∃ rest, selectFirst (eligibleB ∅) [cA, cB] = some (cA, rest) ∧
      pathLoopAux 2 [cA, cB] ∅ 1 =
        ((cA, (⟨cA.id, 1, cA.duration_hours / 10, true⟩ : PathNode)) ::
          (pathLoopAux 1 rest (∅ ∪ cA.skills_covered.toFinset) 2).1,
          cA.duration_hours / 10 +
            (pathLoopAux 1 rest (∅ ∪ cA.skills_covered.toFinset) 2).2) :=
  ⟨(path_step_selects_first_eligible 0 [cB] ∅ 1).1 (by decide),
    (path_step_selects_first_eligible 1 [cA, cB] ∅ 1).2 cA (by decide)⟩

/-- C8: each emitted node's estimated completion weeks is the floor of its
course duration_hours divided by 10, and the returned total is the sum of
the emitted nodes' estimated weeks. -/
theorem path_weeks_and_total (df : List Course) (prior : List String)
    (goal : String) (target : Option ℕ) :
    (generate_learning_path (some df) prior goal target).total_duration_weeks =
      (((generate_learning_path (some df) prior goal target).path_nodes).map
        PathNode.estimated_completion_weeks).sum ∧
    ∀ q ∈ (glpPairs df prior target).1,
      q.2.estimated_completion_weeks = q.1.duration_hours / 10 := by
  constructor
  · show (glpPairs df prior target).2 =
      ((((glpPairs df prior target).1).map Prod.snd).map
        PathNode.estimated_completion_weeks).sum
    rw [List.map_map]
    exact pathLoopAux_total _ _ _ 1
  · intro q hq
    exact (pathLoopAux_mem _ _ _ 1 q hq).2.1

/-- C8 witness: the scenario path has total weeks equal to the sum of its
node estimates, and its first node's 4 weeks is `40 / 10`. -/
theorem path_weeks_and_total_witness :
    (generate_learning_path (some [cA, cB]) [] "g" none).total_duration_weeks =
      (((generate_learning_path (some [cA, cB]) [] "g" none).path_nodes).map
        PathNode.estimated_completion_weeks).sum ∧
    (4 : ℕ) = cA.duration_hours / 10 :=
  ⟨(path_weeks_and_total [cA, cB] [] "g" none).1,
    (path_weeks_and_total [cA, cB] [] "g" none).2 (cA, ⟨1, 1, 4, true⟩)
      (by decide)⟩

end SkillPath
